import Mathlib

/-!
Verification of the streak/target/penalty engine of the lelerun app.

The definitions below are a shallow embedding of the later (authoritative)
variants of `src/services/StreakService.ts`, `src/services/TargetService.ts`
and `src/services/ShopService.ts`.  Dates are modelled as integers counting
local calendar days: the source anchors every date at local noon before
subtracting and flooring, which computes exactly this whole-day difference.
Distances and currency are exact rationals.  The relational store is made
explicit: the `daily_targets` table is an association list from date to
target (unique dates, as enforced by the table's unique key), the available
skip cards are a count, and the profile balance is a rational.
-/

/-- Rounding to the nearest half, `Math.round(raw * 2) / 2` in the source.
JavaScript's `Math.round x` is exactly `⌊x + 1/2⌋` (ties round up). -/
def roundHalf (raw : ℚ) : ℚ := (⌊raw * 2 + 1 / 2⌋ : ℚ) / 2

/-- Sanity check: the rounding above agrees with Mathlib's `round`. -/
theorem roundHalf_eq_round (raw : ℚ) : roundHalf raw = (round (raw * 2) : ℚ) / 2 := by
  rw [roundHalf, round_eq]

/-- Evaluation rule for `roundHalf` used on concrete inputs. -/
theorem roundHalf_eq {x : ℚ} (z : ℤ) (h1 : (z : ℚ) ≤ x * 2 + 1 / 2)
    (h2 : x * 2 + 1 / 2 < z + 1) : roundHalf x = (z : ℚ) / 2 := by
  rw [roundHalf, Int.floor_eq_iff.mpr ⟨h1, h2⟩]

/-- Embedding of `getTargetKm` from `TargetService.ts`: the progressive target curve.
Four piecewise-linear phases, each rounded to 0.5 km increments. -/
def getTargetKm (streakDay : ℤ) : ℚ :=
  if streakDay ≤ 30 then
    roundHalf (1 + (((streakDay : ℚ) - 1) / 29) * (3 / 2))
  else if streakDay ≤ 60 then
    roundHalf (5 / 2 + (((streakDay : ℚ) - 30) / 29) * (3 / 2))
  else if streakDay ≤ 100 then
    roundHalf (4 + (((streakDay : ℚ) - 60) / 39) * 2)
  else
    roundHalf (6 + (min ((streakDay : ℚ) - 100) 100 / 100) * 2)

/-- The target formula exactly as the specification words it: within a phase
the value is the phase's start value plus the fraction
`(day - phaseStart) / (phaseLength - 1)` of the phase's range, rounded to the
nearest 0.5 km, where `phaseStart` is the first day of the phase
(phase 1 starts at day 1, phase 2 at day 31, phase 3 at day 61, phase 4 at
day 101).  Written from the spec's words, for comparison with `getTargetKm`. -/
def claimTargetKm (day : ℤ) : ℚ :=
  if day ≤ 30 then
    roundHalf (1 + (((day : ℚ) - 1) / 29) * (3 / 2))
  else if day ≤ 60 then
    roundHalf (5 / 2 + (((day : ℚ) - 31) / 29) * (3 / 2))
  else if day ≤ 100 then
    roundHalf (4 + (((day : ℚ) - 61) / 39) * 2)
  else
    roundHalf (6 + (((day : ℚ) - 101) / 99) * 2)

/-- The per-user `streaks` row, restricted to the fields the engine reads
and writes.  `updatedAtDate` is the local calendar date of the row's
`updated_at` timestamp, which is all the reconciler ever inspects of it. -/
structure StreakRec where
  currentStreak : ℤ
  longestStreak : ℤ
  penaltyKm : ℚ
  lastRunDate : Option ℤ
  updatedAtDate : Option ℤ
deriving DecidableEq

/-- The slice of the relational store that the streak/target engine touches:
the `streaks` row, the `daily_targets` table, the number of available
(unused, unexpired) skip-day cards, and the profile's RP balance. -/
structure EngineState where
  streak : StreakRec
  targets : List (ℤ × ℚ)
  skipCards : ℕ
  rpBalance : ℚ
deriving DecidableEq

/-- Point lookup in `daily_targets` by date. -/
def lookupTarget : List (ℤ × ℚ) → ℤ → Option ℚ
  | [], _ => none
  | (k, v) :: ts, d => if k = d then some v else lookupTarget ts d

/-- Upsert with `onConflict: user_id,effective_date`: replace the row for
the date if present, otherwise insert it. -/
def upsertTarget : List (ℤ × ℚ) → ℤ → ℚ → List (ℤ × ℚ)
  | [], d, v => [(d, v)]
  | (k, w) :: ts, d, v => if k = d then (d, v) :: ts else (k, w) :: upsertTarget ts d v

/-- The query `.lte('effective_date', today).order(desc).limit(1)`: the row
with the greatest date `≤ d`, if any.  Dates are unique in the table. -/
def mostRecentTargetEntry : List (ℤ × ℚ) → ℤ → Option (ℤ × ℚ)
  | [], _ => none
  | (k, v) :: ts, d =>
    match mostRecentTargetEntry ts d with
    | none => if k ≤ d then some (k, v) else none
    | some (k0, v0) => if k ≤ d ∧ k0 < k then some (k, v) else some (k0, v0)

/-- The `target_km` of the most recent row dated `≤ d`, if any. -/
def mostRecentTarget (ts : List (ℤ × ℚ)) (d : ℤ) : Option ℚ :=
  (mostRecentTargetEntry ts d).map Prod.snd

/-- JavaScript `x || dflt` on an optional number: `null`/`undefined` and `0`
both fall back to the default. -/
def jsOrDefault (o : Option ℚ) (dflt : ℚ) : ℚ :=
  match o with
  | none => dflt
  | some v => if v = 0 then dflt else v

/-- Embedding of `TargetService.generateFutureTargets`: upsert `daysAhead` rows, the row
dated `today + i` receiving the curve value for streak day
`startStreakDay + i`. -/
def generateFutureTargets (ts : List (ℤ × ℚ)) (today startStreakDay : ℤ)
    (daysAhead : ℕ) : List (ℤ × ℚ) :=
  (List.range daysAhead).foldl
    (fun acc (i : ℕ) =>
      upsertTarget acc (today + (i : ℤ)) (getTargetKm (startStreakDay + (i : ℤ)))) ts

/-- Embedding of `TargetService.deleteFutureTargets`: delete every row dated tomorrow or
later. -/
def deleteFutureTargets (ts : List (ℤ × ℚ)) (today : ℤ) : List (ℤ × ℚ) :=
  ts.filter (fun p => decide (p.1 < today + 1))

/-- Embedding of `TargetService.ensureTodayTarget`: return today's stored target if it
exists; otherwise treat today as streak day `currentStreak + 1` and generate
90 days of targets starting there, returning today's new value. -/
def ensureTodayTarget (s : EngineState) (today : ℤ) : ℚ × EngineState :=
  match lookupTarget s.targets today with
  | some v => (v, s)
  | none =>
    let startDay := s.streak.currentStreak + 1
    (getTargetKm startDay,
      { s with targets := generateFutureTargets s.targets today startDay 90 })

/-- Embedding of `StreakService.checkAndApplyPenalties` (the missed-day reconciler).
Returns the penalty added (0 if none) together with the updated state. -/
def checkAndApplyPenalties (s : EngineState) (today : ℤ) : ℚ × EngineState :=
  match s.streak.lastRunDate with
  | none => (0, (ensureTodayTarget s today).2)
  | some lastRun =>
    if s.streak.updatedAtDate = some today then
      (0, (ensureTodayTarget s today).2)
    else if lastRun = today then
      (0, (ensureTodayTarget s today).2)
    else
      let diffDays : ℤ := today - lastRun
      if diffDays ≤ 1 then
        (0, (ensureTodayTarget s today).2)
      else
        let missedDays := diffDays - 1
        let cardsToUse : ℤ := min (s.skipCards : ℤ) missedDays
        let actualMissed := missedDays - cardsToUse
        let newLastRun := lastRun + cardsToUse
        let s1 : EngineState := { s with skipCards := s.skipCards - cardsToUse.toNat }
        if 0 < actualMissed then
          let targetKmBase := jsOrDefault (mostRecentTarget s.targets today) 2
          if actualMissed = 1 then
            let s2 : EngineState := { s1 with streak := { s1.streak with
                penaltyKm := s1.streak.penaltyKm + targetKmBase,
                lastRunDate := some newLastRun,
                updatedAtDate := some today } }
            (targetKmBase, (ensureTodayTarget s2 today).2)
          else
            let s2 : EngineState := { s1 with
              streak := { s1.streak with
                penaltyKm := 0,
                currentStreak := 0,
                lastRunDate := some newLastRun,
                updatedAtDate := some today },
              targets := deleteFutureTargets s1.targets today }
            (0, (ensureTodayTarget s2 today).2)
        else
          let s2 : EngineState := { s1 with streak := { s1.streak with
              lastRunDate := some newLastRun,
              updatedAtDate := some today } }
          (0, (ensureTodayTarget s2 today).2)

/-- The result record of `updateStreakAfterWorkout`. -/
structure WorkoutResult where
  streakUpdated : Bool
  rpEarned : ℤ
  penaltyCleared : ℚ
  newStreak : ℤ
deriving DecidableEq

/-- The body of `StreakService.updateStreakAfterWorkout` after its initial
call to `checkAndApplyPenalties`: clear the penalty from the distance,
evaluate the target, award RP, and advance the streak on a new run day. -/
def processWorkout (s : EngineState) (today : ℤ) (distanceKm targetKm : ℚ) :
    WorkoutResult × EngineState :=
  let penaltyKm0 := s.streak.penaltyKm
  let penaltyCleared := if 0 < penaltyKm0 then
      (if penaltyKm0 ≤ distanceKm then penaltyKm0 else distanceKm) else 0
  let penaltyKm1 := if 0 < penaltyKm0 then
      (if penaltyKm0 ≤ distanceKm then 0 else penaltyKm0 - distanceKm) else penaltyKm0
  let remaining := distanceKm - penaltyCleared
  let targetMet : Prop := if 0 < targetKm then targetKm ≤ remaining else 0 < distanceKm
  let rpEarned : ℤ := if targetMet ∧ 0 < targetKm then
      max 0 ⌊(remaining - targetKm) * 10⌋ else 0
  let alreadyRanToday : Prop := s.streak.lastRunDate = some today
  let advance : Prop := targetMet ∧ ¬alreadyRanToday
  let currentStreak1 := if advance then
      (if s.streak.currentStreak = 0 then 1 else s.streak.currentStreak + 1)
    else s.streak.currentStreak
  let longestStreak1 := if advance then
      max s.streak.longestStreak currentStreak1 else s.streak.longestStreak
  let targets1 := if advance then
      generateFutureTargets s.targets today (currentStreak1 + 1) 90 else s.targets
  let rpBalance1 := if 0 < rpEarned then s.rpBalance + rpEarned else s.rpBalance
  ({ streakUpdated := decide targetMet, rpEarned := rpEarned,
     penaltyCleared := penaltyCleared, newStreak := currentStreak1 },
   { streak := { currentStreak := currentStreak1, longestStreak := longestStreak1,
                 penaltyKm := penaltyKm1, lastRunDate := some today,
                 updatedAtDate := some today },
     targets := targets1, skipCards := s.skipCards, rpBalance := rpBalance1 })

/-- Embedding of `StreakService.updateStreakAfterWorkout`: reconcile missed days first,
then process the finished workout. -/
def updateStreakAfterWorkout (s : EngineState) (today : ℤ)
    (distanceKm targetKm : ℚ) : WorkoutResult × EngineState :=
  processWorkout (checkAndApplyPenalties s today).2 today distanceKm targetKm

/-- A row of the `purchases` table for a skip-day item.  Timestamps are
integers (milliseconds). -/
structure SkipPurchase where
  itemId : String
  expiresAt : ℤ
  weekOfYear : ℤ
  usedAt : Option ℤ
deriving DecidableEq

/-- The slice of the store that `ShopService.purchaseSkipCard` touches:
the profile's RP balance (`none` when the profile row is missing) and the
user's purchases. -/
structure ShopState where
  rpBalance : Option ℚ
  purchases : List SkipPurchase
deriving DecidableEq

/-- Outcome of a purchase attempt, mirroring the returned error messages. -/
inductive PurchaseOutcome where
  | purchased (p : SkipPurchase)
  | notEnoughRP
  | weeklyLimitReached
deriving DecidableEq

/-- The `week_of_year`-bucket count used for the weekly cap: purchases of
this item made in the current week bucket, used or unused. -/
def weeklyCount (s : ShopState) (itemId : String) (weekOfYear : ℤ) : ℕ :=
  (s.purchases.filter
    (fun p => decide (p.itemId = itemId ∧ p.weekOfYear = weekOfYear))).length

/-- Embedding of `ShopService.purchaseSkipCard`.  `now` is the current timestamp in
milliseconds and `weekOfYear` the current ISO week bucket
(`year * 100 + isoWeek`, computed by the source from `now`). -/
def purchaseSkipCard (s : ShopState) (itemId : String) (rpCost : ℚ)
    (now weekOfYear : ℤ) : PurchaseOutcome × ShopState :=
  match s.rpBalance with
  | none => (.notEnoughRP, s)
  | some bal =>
    if bal < rpCost then (.notEnoughRP, s)
    else if 2 ≤ weeklyCount s itemId weekOfYear then (.weeklyLimitReached, s)
    else
      let newPurchase : SkipPurchase :=
        { itemId := itemId, expiresAt := now + 24 * 60 * 60 * 1000,
          weekOfYear := weekOfYear, usedAt := none }
      (.purchased newPurchase,
       { rpBalance := some (bal - rpCost),
         purchases := s.purchases ++ [newPurchase] })

theorem lookupTarget_upsertTarget (ts : List (ℤ × ℚ)) (k : ℤ) (v : ℚ) (d : ℤ) :
    lookupTarget (upsertTarget ts k v) d =
      if d = k then some v else lookupTarget ts d := by
  induction ts with
  | nil => simp [upsertTarget, lookupTarget, eq_comm]
  | cons p ts ih =>
    obtain ⟨k0, v0⟩ := p
    by_cases h0 : k0 = k
    · subst h0
      by_cases hd : d = k0 <;> simp [upsertTarget, lookupTarget, hd, eq_comm]
    · by_cases hd : d = k
      · subst hd
        simp [upsertTarget, lookupTarget, h0, ih, Ne.symm h0]
      · by_cases h1 : k0 = d <;>
          simp [upsertTarget, lookupTarget, h0, h1, ih, hd]

theorem lookupTarget_generateFutureTargets (ts : List (ℤ × ℚ))
    (today start : ℤ) (n : ℕ) (d : ℤ) :
    lookupTarget (generateFutureTargets ts today start n) d =
      if today ≤ d ∧ d < today + n then some (getTargetKm (start + (d - today)))
      else lookupTarget ts d := by
  induction n with
  | zero =>
    simp only [generateFutureTargets, List.range_zero, List.foldl_nil, Nat.cast_zero]
    rw [if_neg (by omega)]
  | succ n ih =>
    have hgen : generateFutureTargets ts today start (n + 1) =
        upsertTarget (generateFutureTargets ts today start n)
          (today + n) (getTargetKm (start + n)) := by
      simp [generateFutureTargets, List.range_succ]
    rw [hgen, lookupTarget_upsertTarget, ih]
    by_cases h1 : d = today + (n : ℤ)
    · subst h1
      rw [if_pos rfl, if_pos (by push_cast; omega)]
      congr 2
      omega
    · rw [if_neg h1]
      by_cases h3 : today ≤ d ∧ d < today + (n : ℤ)
      · rw [if_pos h3, if_pos (by push_cast; omega)]
      · rw [if_neg h3, if_neg (by push_cast; omega)]

theorem lookupTarget_deleteFutureTargets (ts : List (ℤ × ℚ)) (today d : ℤ) :
    lookupTarget (deleteFutureTargets ts today) d =
      if d ≤ today then lookupTarget ts d else none := by
  induction ts with
  | nil => simp [deleteFutureTargets, lookupTarget]
  | cons p ts ih =>
    obtain ⟨k, v⟩ := p
    simp only [deleteFutureTargets, List.filter_cons] at ih ⊢
    by_cases hk : k < today + 1
    · rw [if_pos (by simpa using hk), lookupTarget]
      by_cases hd : k = d
      · subst hd
        rw [if_pos rfl, if_pos (by omega), lookupTarget, if_pos rfl]
      · rw [if_neg hd, ih]
        by_cases h2 : d ≤ today
        · rw [if_pos h2, if_pos h2, lookupTarget, if_neg hd]
        · rw [if_neg h2, if_neg h2]
    · have : ¬ decide (k < today + 1) = true := by simpa using hk
      rw [if_neg this, ih]
      by_cases h2 : d ≤ today
      · rw [if_pos h2, if_pos h2, lookupTarget, if_neg (by omega)]
      · rw [if_neg h2, if_neg h2]

theorem mostRecentTargetEntry_mem (ts : List (ℤ × ℚ)) (d : ℤ) (k : ℤ) (v : ℚ)
    (h : mostRecentTargetEntry ts d = some (k, v)) : (k, v) ∈ ts := by
  induction ts with
  | nil => simp [mostRecentTargetEntry] at h
  | cons p ts ih =>
    obtain ⟨k1, v1⟩ := p
    rcases hrec : mostRecentTargetEntry ts d with _ | ⟨k0, v0⟩ <;>
      simp only [mostRecentTargetEntry, hrec] at h
    · by_cases hk : k1 ≤ d
      · rw [if_pos hk] at h
        injection h with h2
        injection h2 with hk2 hv2
        subst hk2
        subst hv2
        exact List.mem_cons_self _ _
      · rw [if_neg hk] at h
        exact absurd h (by simp)
    · by_cases hk : k1 ≤ d ∧ k0 < k1
      · rw [if_pos hk] at h
        injection h with h2
        injection h2 with hk2 hv2
        subst hk2
        subst hv2
        exact List.mem_cons_self _ _
      · rw [if_neg hk] at h
        exact List.mem_cons_of_mem _ (ih (by rw [hrec, h]))

theorem jsOrDefault_of_pos (ts : List (ℤ × ℚ)) (d : ℤ)
    (hpos : ∀ p ∈ ts, (0 : ℚ) < p.2) :
    jsOrDefault (mostRecentTarget ts d) 2 = (mostRecentTarget ts d).getD 2 := by
  rw [mostRecentTarget]
  rcases hrec : mostRecentTargetEntry ts d with _ | ⟨k, v⟩
  · rfl
  · have hv : (0 : ℚ) < v := hpos _ (mostRecentTargetEntry_mem ts d k v hrec)
    simp [jsOrDefault, ne_of_gt hv]

theorem ensureTodayTarget_preserves (s : EngineState) (today : ℤ) :
    (ensureTodayTarget s today).2.streak = s.streak ∧
    (ensureTodayTarget s today).2.skipCards = s.skipCards ∧
    (ensureTodayTarget s today).2.rpBalance = s.rpBalance := by
  rw [ensureTodayTarget]
  rcases lookupTarget s.targets today with _ | v <;> simp

theorem checkAndApplyPenalties_none (s : EngineState) (today : ℤ)
    (hl : s.streak.lastRunDate = none) :
    checkAndApplyPenalties s today = (0, (ensureTodayTarget s today).2) := by
  simp [checkAndApplyPenalties, hl]

theorem checkAndApplyPenalties_updated (s : EngineState) (today : ℤ)
    (hu : s.streak.updatedAtDate = some today) :
    checkAndApplyPenalties s today = (0, (ensureTodayTarget s today).2) := by
  rcases hl : s.streak.lastRunDate with _ | lr <;>
    simp [checkAndApplyPenalties, hl, hu]

theorem checkAndApplyPenalties_recent (s : EngineState) (today lr : ℤ)
    (hl : s.streak.lastRunDate = some lr) (hd : today - lr ≤ 1) :
    checkAndApplyPenalties s today = (0, (ensureTodayTarget s today).2) := by
  by_cases hu : s.streak.updatedAtDate = some today
  · simp [checkAndApplyPenalties, hl, hu]
  · by_cases hlr : lr = today
    · simp [checkAndApplyPenalties, hl, hu, hlr]
    · simp [checkAndApplyPenalties, hl, hu, hlr, hd]

theorem checkAndApplyPenalties_covered (s : EngineState) (today lr : ℤ)
    (hl : s.streak.lastRunDate = some lr)
    (hu : ¬s.streak.updatedAtDate = some today)
    (hgap : 1 < today - lr)
    (hm : today - lr - 1 - min (s.skipCards : ℤ) (today - lr - 1) = 0) :
    checkAndApplyPenalties s today =
      (0, (ensureTodayTarget
        { streak := { s.streak with
            lastRunDate := some (lr + min (s.skipCards : ℤ) (today - lr - 1)),
            updatedAtDate := some today },
          targets := s.targets,
          skipCards := s.skipCards - (min (s.skipCards : ℤ) (today - lr - 1)).toNat,
          rpBalance := s.rpBalance } today).2) := by
  have hlr : ¬lr = today := by omega
  have hd : ¬today - lr ≤ 1 := by omega
  have h3 : ¬0 < today - lr - 1 - min (s.skipCards : ℤ) (today - lr - 1) := by omega
  simp [checkAndApplyPenalties, hl, hu, hlr, hd, h3]

theorem checkAndApplyPenalties_onemiss (s : EngineState) (today lr : ℤ)
    (hl : s.streak.lastRunDate = some lr)
    (hu : ¬s.streak.updatedAtDate = some today)
    (hm : today - lr - 1 - min (s.skipCards : ℤ) (today - lr - 1) = 1) :
    checkAndApplyPenalties s today =
      (jsOrDefault (mostRecentTarget s.targets today) 2,
       (ensureTodayTarget
        { streak := { s.streak with
            penaltyKm := s.streak.penaltyKm +
              jsOrDefault (mostRecentTarget s.targets today) 2,
            lastRunDate := some (lr + min (s.skipCards : ℤ) (today - lr - 1)),
            updatedAtDate := some today },
          targets := s.targets,
          skipCards := s.skipCards - (min (s.skipCards : ℤ) (today - lr - 1)).toNat,
          rpBalance := s.rpBalance } today).2) := by
  have hlr : ¬lr = today := by omega
  have hd : ¬today - lr ≤ 1 := by omega
  have h3 : 0 < today - lr - 1 - min (s.skipCards : ℤ) (today - lr - 1) := by omega
  simp [checkAndApplyPenalties, hl, hu, hlr, hd, h3, hm]

theorem checkAndApplyPenalties_reset (s : EngineState) (today lr : ℤ)
    (hl : s.streak.lastRunDate = some lr)
    (hu : ¬s.streak.updatedAtDate = some today)
    (hm : 2 ≤ today - lr - 1 - min (s.skipCards : ℤ) (today - lr - 1)) :
    checkAndApplyPenalties s today =
      (0, (ensureTodayTarget
        { streak := { s.streak with
            penaltyKm := 0,
            currentStreak := 0,
            lastRunDate := some (lr + min (s.skipCards : ℤ) (today - lr - 1)),
            updatedAtDate := some today },
          targets := deleteFutureTargets s.targets today,
          skipCards := s.skipCards - (min (s.skipCards : ℤ) (today - lr - 1)).toNat,
          rpBalance := s.rpBalance } today).2) := by
  have hlr : ¬lr = today := by omega
  have hd : ¬today - lr ≤ 1 := by omega
  have h3 : 0 < today - lr - 1 - min (s.skipCards : ℤ) (today - lr - 1) := by omega
  have h4 : ¬today - lr - 1 - min (s.skipCards : ℤ) (today - lr - 1) = 1 := by omega
  simp [checkAndApplyPenalties, hl, hu, hlr, hd, h3, h4]

theorem getTargetKm_phase1 (d : ℤ) (h : d ≤ 30) :
    getTargetKm d = roundHalf (1 + (((d : ℚ) - 1) / 29) * (3 / 2)) := by
  rw [getTargetKm, if_pos h]

theorem getTargetKm_phase2 (d : ℤ) (h1 : 30 < d) (h2 : d ≤ 60) :
    getTargetKm d = roundHalf (5 / 2 + (((d : ℚ) - 30) / 29) * (3 / 2)) := by
  rw [getTargetKm, if_neg (by omega), if_pos h2]

theorem getTargetKm_phase3 (d : ℤ) (h1 : 60 < d) (h2 : d ≤ 100) :
    getTargetKm d = roundHalf (4 + (((d : ℚ) - 60) / 39) * 2) := by
  rw [getTargetKm, if_neg (by omega), if_neg (by omega), if_pos h2]

theorem getTargetKm_phase4 (d : ℤ) (h : 100 < d) :
    getTargetKm d = roundHalf (6 + (min ((d : ℚ) - 100) 100 / 100) * 2) := by
  rw [getTargetKm, if_neg (by omega), if_neg (by omega), if_neg (by omega)]

theorem roundHalf_mono {x y : ℚ} (h : x ≤ y) : roundHalf x ≤ roundHalf y := by
  rw [roundHalf, roundHalf]
  have h1 : ⌊x * 2 + 1 / 2⌋ ≤ ⌊y * 2 + 1 / 2⌋ := Int.floor_mono (by linarith)
  have h2 : ((⌊x * 2 + 1 / 2⌋ : ℤ) : ℚ) ≤ ((⌊y * 2 + 1 / 2⌋ : ℤ) : ℚ) := by
    exact_mod_cast h1
  linarith

theorem getTargetKm_one : getTargetKm 1 = 1 := by
  rw [getTargetKm_phase1 1 (by norm_num),
    roundHalf_eq 2 (by push_cast; norm_num) (by push_cast; norm_num)]
  norm_num

theorem getTargetKm_thirty : getTargetKm 30 = 5 / 2 := by
  rw [getTargetKm_phase1 30 (by norm_num),
    roundHalf_eq 5 (by push_cast; norm_num) (by push_cast; norm_num)]
  norm_num

theorem getTargetKm_thirtyone : getTargetKm 31 = 5 / 2 := by
  rw [getTargetKm_phase2 31 (by norm_num) (by norm_num),
    roundHalf_eq 5 (by push_cast; norm_num) (by push_cast; norm_num)]
  norm_num

theorem getTargetKm_thirtyfive : getTargetKm 35 = 3 := by
  rw [getTargetKm_phase2 35 (by norm_num) (by norm_num),
    roundHalf_eq 6 (by push_cast; norm_num) (by push_cast; norm_num)]
  norm_num

theorem getTargetKm_sixty : getTargetKm 60 = 4 := by
  rw [getTargetKm_phase2 60 (by norm_num) (by norm_num),
    roundHalf_eq 8 (by push_cast; norm_num) (by push_cast; norm_num)]
  norm_num

theorem getTargetKm_hundred : getTargetKm 100 = 6 := by
  rw [getTargetKm_phase3 100 (by norm_num) (by norm_num),
    roundHalf_eq 12 (by push_cast; norm_num) (by push_cast; norm_num)]
  norm_num

theorem getTargetKm_flat (d : ℤ) (h : 200 ≤ d) : getTargetKm d = 8 := by
  rw [getTargetKm_phase4 d (by omega)]
  have hc : (200 : ℚ) ≤ (d : ℚ) := by exact_mod_cast h
  have hmin : min ((d : ℚ) - 100) 100 = 100 := min_eq_right (by linarith)
  rw [hmin, show (6 : ℚ) + 100 / 100 * 2 = 8 by norm_num,
    roundHalf_eq 16 (by norm_num) (by norm_num)]
  norm_num

theorem getTargetKm_mono_within (d e : ℤ) (hde : d ≤ e)
    (hph : e ≤ 30 ∨ (31 ≤ d ∧ e ≤ 60) ∨ (61 ≤ d ∧ e ≤ 100) ∨ 101 ≤ d) :
    getTargetKm d ≤ getTargetKm e := by
  have hq : (d : ℚ) ≤ (e : ℚ) := by exact_mod_cast hde
  rcases hph with he | ⟨h31, h60⟩ | ⟨h61, h100⟩ | h101
  · rw [getTargetKm_phase1 d (by omega), getTargetKm_phase1 e he]
    exact roundHalf_mono (by linarith)
  · rw [getTargetKm_phase2 d (by omega) (by omega),
      getTargetKm_phase2 e (by omega) h60]
    exact roundHalf_mono (by linarith)
  · rw [getTargetKm_phase3 d (by omega) (by omega),
      getTargetKm_phase3 e (by omega) h100]
    exact roundHalf_mono (by linarith)
  · rw [getTargetKm_phase4 d (by omega), getTargetKm_phase4 e (by omega)]
    have hmin : min ((d : ℚ) - 100) 100 ≤ min ((e : ℚ) - 100) 100 :=
      min_le_min (by linarith) le_rfl
    exact roundHalf_mono (by linarith)

/-- C4: for every integer day ≥ 1, `getTargetKm day` is a multiple of
0.5 km, is non-decreasing in the day within each phase of the table
(1–30, 31–60, 61–100, 101–200), equals exactly 1.0 at day 1, 2.5 at day 30,
2.5 at day 31, and 8.0 for every day ≥ 200 (total and flat past the cap). -/
theorem getTargetKm_curve_properties (day : ℤ) (_hday : 1 ≤ day) :
    (∃ k : ℤ, getTargetKm day = (k : ℚ) / 2) ∧
    (∀ e : ℤ, day ≤ e →
      (e ≤ 30 ∨ (31 ≤ day ∧ e ≤ 60) ∨ (61 ≤ day ∧ e ≤ 100) ∨
        (101 ≤ day ∧ e ≤ 200)) →
      getTargetKm day ≤ getTargetKm e) ∧
    getTargetKm 1 = 1 ∧ getTargetKm 30 = 5 / 2 ∧ getTargetKm 31 = 5 / 2 ∧
    (200 ≤ day → getTargetKm day = 8) := by
  have hhalf : ∀ x : ℚ, ∃ k : ℤ, roundHalf x = (k : ℚ) / 2 :=
    fun x => ⟨⌊x * 2 + 1 / 2⌋, rfl⟩
  refine ⟨?_, ?_, getTargetKm_one, getTargetKm_thirty, getTargetKm_thirtyone,
    getTargetKm_flat day⟩
  · rw [getTargetKm]
    split
    · exact hhalf _
    · split
      · exact hhalf _
      · split
        · exact hhalf _
        · exact hhalf _
  · intro e he hph
    refine getTargetKm_mono_within day e he ?_
    rcases hph with h | h | h | ⟨h, _⟩
    · exact Or.inl h
    · exact Or.inr (Or.inl h)
    · exact Or.inr (Or.inr (Or.inl h))
    · exact Or.inr (Or.inr (Or.inr h))

/-- C4 witness: the curve properties instantiated at concrete days. -/
theorem getTargetKm_curve_properties_witness :
    (∃ k : ℤ, getTargetKm 3 = (k : ℚ) / 2) ∧
    getTargetKm 35 ≤ getTargetKm 40 ∧ getTargetKm 250 = 8 := by
  refine ⟨(getTargetKm_curve_properties 3 (by norm_num)).1, ?_, ?_⟩
  · exact (getTargetKm_curve_properties 35 (by norm_num)).2.1 40 (by norm_num)
      (Or.inr (Or.inl ⟨by norm_num, by norm_num⟩))
  · exact (getTargetKm_curve_properties 250 (by norm_num)).2.2.2.2.2 (by norm_num)

/-- C5 counterexample: the spec's in-phase interpolation formula
`phaseStart + ((day - phaseStart) / (phaseLength - 1)) * range` disagrees
with the code at day 35 (phase 2): the code yields 3.0 km, the claimed
formula 2.5 km.  The code offsets phase 2 by `day - 30`, not
`day - phaseStart = day - 31`. -/
theorem claimTargetKm_counterexample :
    getTargetKm 35 = 3 ∧ claimTargetKm 35 = 5 / 2 ∧
    getTargetKm 35 ≠ claimTargetKm 35 := by
  have h1 := getTargetKm_thirtyfive
  have h2 : claimTargetKm 35 = 5 / 2 := by
    rw [claimTargetKm, if_neg (by norm_num), if_pos (by norm_num),
      roundHalf_eq 5 (by push_cast; norm_num) (by push_cast; norm_num)]
    norm_num
  exact ⟨h1, h2, by rw [h1, h2]; norm_num⟩

/-- C5 (amended): within each phase `getTargetKm` is the phase's start value
plus a fraction of the phase's range rounded to the nearest 0.5 km, but the
fraction's offset is taken from the day before the phase starts:
`(day - 1) / 29` in phase 1, `(day - 30) / 29` in phase 2,
`(day - 60) / 39` in phase 3 and `(day - 100) / 100` in phase 4 (so the
denominator of phase 4 is the phase length, not length − 1).  The nominal
endpoint values of each phase still hold exactly. -/
theorem getTargetKm_phase_formula (day : ℤ) :
    (1 ≤ day → day ≤ 30 →
      getTargetKm day = roundHalf (1 + (((day : ℚ) - 1) / 29) * (5 / 2 - 1))) ∧
    (31 ≤ day → day ≤ 60 →
      getTargetKm day = roundHalf (5 / 2 + (((day : ℚ) - 30) / 29) * (4 - 5 / 2))) ∧
    (61 ≤ day → day ≤ 100 →
      getTargetKm day = roundHalf (4 + (((day : ℚ) - 60) / 39) * (6 - 4))) ∧
    (101 ≤ day → day ≤ 200 →
      getTargetKm day = roundHalf (6 + (((day : ℚ) - 100) / 100) * (8 - 6))) ∧
    getTargetKm 30 = 5 / 2 ∧ getTargetKm 60 = 4 ∧ getTargetKm 100 = 6 ∧
    getTargetKm 200 = 8 := by
  refine ⟨fun ha hb => ?_, fun ha hb => ?_, fun ha hb => ?_, fun ha hb => ?_,
    getTargetKm_thirty, getTargetKm_sixty, getTargetKm_hundred,
    getTargetKm_flat 200 (by norm_num)⟩
  · rw [getTargetKm_phase1 day hb]
    congr 1
    ring
  · rw [getTargetKm_phase2 day (by omega) hb]
    congr 1
    ring
  · rw [getTargetKm_phase3 day (by omega) hb]
    congr 1
    ring
  · rw [getTargetKm_phase4 day (by omega)]
    have hc : ((day : ℚ) - 100) ≤ 100 := by
      have h200 : (day : ℚ) ≤ 200 := by exact_mod_cast hb
      linarith
    rw [min_eq_left hc]
    congr 1
    ring

/-- C5 witness: the amended formula instantiated at day 35 of phase 2. -/
theorem getTargetKm_phase_formula_witness :
    getTargetKm 35 = roundHalf (5 / 2 + (((35 : ℚ) - 30) / 29) * (4 - 5 / 2)) ∧
    getTargetKm 60 = 4 := by
  have h := (getTargetKm_phase_formula 35).2.1 (by norm_num) (by norm_num)
  have h60 := (getTargetKm_phase_formula 35).2.2.2.2.2.1
  refine ⟨?_, h60⟩
  push_cast at h
  exact h

theorem checkAndApplyPenalties_post_updated (s : EngineState) (today lr : ℤ)
    (hl : s.streak.lastRunDate = some lr)
    (hu : ¬s.streak.updatedAtDate = some today)
    (hgap : 1 < today - lr) :
    (checkAndApplyPenalties s today).2.streak.updatedAtDate = some today := by
  by_cases h0 : today - lr - 1 - min (s.skipCards : ℤ) (today - lr - 1) = 0
  · rw [checkAndApplyPenalties_covered s today lr hl hu hgap h0]
    rw [(ensureTodayTarget_preserves _ today).1]
  · by_cases h1 : today - lr - 1 - min (s.skipCards : ℤ) (today - lr - 1) = 1
    · rw [checkAndApplyPenalties_onemiss s today lr hl hu h1]
      rw [(ensureTodayTarget_preserves _ today).1]
    · have h2 : 2 ≤ today - lr - 1 - min (s.skipCards : ℤ) (today - lr - 1) := by
        omega
      rw [checkAndApplyPenalties_reset s today lr hl hu h2]
      rw [(ensureTodayTarget_preserves _ today).1]

/-- C7: `checkAndApplyPenalties` is idempotent within a calendar day.  A call
on a record already reconciled today (its `updated_at` local date is today)
or already run today (`last_run_date` is today) returns 0, leaves every
field of the streak record unchanged and consumes no skip cards; and after
any first call, a second call the same day returns 0 and leaves the streak
record unchanged. -/
theorem checkAndApplyPenalties_idempotent (s : EngineState) (today : ℤ) :
    ((s.streak.updatedAtDate = some today ∨ s.streak.lastRunDate = some today) →
      (checkAndApplyPenalties s today).1 = 0 ∧
      (checkAndApplyPenalties s today).2.streak = s.streak ∧
      (checkAndApplyPenalties s today).2.skipCards = s.skipCards) ∧
    (checkAndApplyPenalties (checkAndApplyPenalties s today).2 today).1 = 0 ∧
    (checkAndApplyPenalties (checkAndApplyPenalties s today).2 today).2.streak =
      (checkAndApplyPenalties s today).2.streak := by
  constructor
  · rintro (hu | hl)
    · rw [checkAndApplyPenalties_updated s today hu]
      exact ⟨rfl, (ensureTodayTarget_preserves s today).1,
        (ensureTodayTarget_preserves s today).2.1⟩
    · rw [checkAndApplyPenalties_recent s today today hl (by omega)]
      exact ⟨rfl, (ensureTodayTarget_preserves s today).1,
        (ensureTodayTarget_preserves s today).2.1⟩
  · rcases hl : s.streak.lastRunDate with _ | lr
    · rw [checkAndApplyPenalties_none s today hl]
      rw [checkAndApplyPenalties_none _ today
        (by rw [(ensureTodayTarget_preserves s today).1]; exact hl)]
      exact ⟨rfl, (ensureTodayTarget_preserves _ today).1⟩
    · by_cases hu : s.streak.updatedAtDate = some today
      · rw [checkAndApplyPenalties_updated s today hu]
        rw [checkAndApplyPenalties_updated _ today
          (by rw [(ensureTodayTarget_preserves s today).1]; exact hu)]
        exact ⟨rfl, (ensureTodayTarget_preserves _ today).1⟩
      · by_cases hgap : today - lr ≤ 1
        · rw [checkAndApplyPenalties_recent s today lr hl hgap]
          rw [checkAndApplyPenalties_recent _ today lr
            (by rw [(ensureTodayTarget_preserves s today).1]; exact hl) hgap]
          exact ⟨rfl, (ensureTodayTarget_preserves _ today).1⟩
        · rw [checkAndApplyPenalties_updated _ today
            (checkAndApplyPenalties_post_updated s today lr hl hu (by omega))]
          exact ⟨rfl, (ensureTodayTarget_preserves _ today).1⟩

/-- C7 witness: a record whose `updated_at` local date and `last_run_date`
are both today is left exactly as is, with no penalty and no card use. -/
theorem checkAndApplyPenalties_idempotent_witness :
    (checkAndApplyPenalties
        ⟨⟨2, 3, 0, some 10, some 10⟩, [(10, 2)], 1, 0⟩ 10).1 = 0 ∧
    (checkAndApplyPenalties
        ⟨⟨2, 3, 0, some 10, some 10⟩, [(10, 2)], 1, 0⟩ 10).2.streak =
      (⟨2, 3, 0, some 10, some 10⟩ : StreakRec) ∧
    (checkAndApplyPenalties
        ⟨⟨2, 3, 0, some 10, some 10⟩, [(10, 2)], 1, 0⟩ 10).2.skipCards = 1 :=
  (checkAndApplyPenalties_idempotent
    ⟨⟨2, 3, 0, some 10, some 10⟩, [(10, 2)], 1, 0⟩ 10).1 (Or.inl rfl)

theorem ensureTodayTarget_streak (s : EngineState) (today : ℤ) :
    (ensureTodayTarget s today).2.streak = s.streak :=
  (ensureTodayTarget_preserves s today).1

theorem ensureTodayTarget_skip (s : EngineState) (today : ℤ) :
    (ensureTodayTarget s today).2.skipCards = s.skipCards :=
  (ensureTodayTarget_preserves s today).2.1

theorem ensureTodayTarget_some (s : EngineState) (today : ℤ) (v : ℚ)
    (h : lookupTarget s.targets today = some v) :
    ensureTodayTarget s today = (v, s) := by
  simp [ensureTodayTarget, h]

theorem ensureTodayTarget_none (s : EngineState) (today : ℤ)
    (h : lookupTarget s.targets today = none) :
    ensureTodayTarget s today =
      (getTargetKm (s.streak.currentStreak + 1),
       { s with targets :=
          generateFutureTargets s.targets today (s.streak.currentStreak + 1) 90 }) := by
  simp [ensureTodayTarget, h]

/-- C1 (amended): on a record not yet reconciled today, when
`remainingMissed ≥ 2` uncovered missed days remain the reconciler performs a
hard reset — `currentStreak` becomes 0, `penaltyKm` becomes 0 (existing debt
wiped), `longestStreak` is untouched, the call returns 0 penalty added, and
the previously stored future target rows (date ≥ tomorrow) are deleted.
Today's target is then ensured: when today has no stored target row (as in
the spec's scenario of a last run 3 days ago), targets are regenerated from
day 1 of a fresh streak, so today's target becomes `getTargetKm 1 = 1.0` km
and dates `d` with `today < d < today + 90` hold the fresh day-`(d - today
+ 1)` values while later old rows are gone; when today already has a stored
row its value is kept (see the counterexample). -/
theorem checkAndApplyPenalties_hard_reset (s : EngineState) (today lr : ℤ)
    (hl : s.streak.lastRunDate = some lr)
    (hu : ¬s.streak.updatedAtDate = some today)
    (hm : 2 ≤ today - lr - 1 - min (s.skipCards : ℤ) (today - lr - 1))
    (htoday : lookupTarget s.targets today = none) :
    (checkAndApplyPenalties s today).1 = 0 ∧
    (checkAndApplyPenalties s today).2.streak.currentStreak = 0 ∧
    (checkAndApplyPenalties s today).2.streak.penaltyKm = 0 ∧
    (checkAndApplyPenalties s today).2.streak.longestStreak =
      s.streak.longestStreak ∧
    lookupTarget (checkAndApplyPenalties s today).2.targets today =
      some (getTargetKm 1) ∧
    (∀ d : ℤ, today < d →
      lookupTarget (checkAndApplyPenalties s today).2.targets d =
        if d < today + 90 then some (getTargetKm (1 + (d - today))) else none) := by
  rw [checkAndApplyPenalties_reset s today lr hl hu hm]
  have hdel : lookupTarget (deleteFutureTargets s.targets today) today = none := by
    rw [lookupTarget_deleteFutureTargets, if_pos le_rfl]
    exact htoday
  rw [ensureTodayTarget_none _ today hdel]
  refine ⟨rfl, rfl, rfl, rfl, ?_, ?_⟩
  · rw [lookupTarget_generateFutureTargets, if_pos ⟨le_rfl, by push_cast; omega⟩]
    simp
  · intro d hd
    rw [lookupTarget_generateFutureTargets]
    by_cases h90 : d < today + 90
    · rw [if_pos (by push_cast; omega), if_pos h90]
      simp
    · rw [if_neg (by push_cast; omega), if_neg h90,
        lookupTarget_deleteFutureTargets, if_neg (by omega)]

/-- C1 counterexample: with `lastRunDate` 3 days ago, no credits and the
most recent stored target being today's own row of 2.0 km, the reset fires
but today's target is NOT regenerated to day 1's 1.0 km: `ensureTodayTarget`
keeps the existing row, so the stored target for today stays 2.0 km. -/
theorem checkAndApplyPenalties_hard_reset_counterexample :
    (checkAndApplyPenalties
        ⟨⟨4, 6, 0, some 97, some 99⟩, [(100, 2)], 0, 0⟩ 100).2.streak.currentStreak
      = 0 ∧
    lookupTarget (checkAndApplyPenalties
        ⟨⟨4, 6, 0, some 97, some 99⟩, [(100, 2)], 0, 0⟩ 100).2.targets 100
      = some 2 ∧
    getTargetKm 1 = 1 ∧ (2 : ℚ) ≠ 1 := by
  rw [checkAndApplyPenalties_reset _ 100 97 rfl (by decide) (by decide)]
  have hdel : deleteFutureTargets ([((100 : ℤ), (2 : ℚ))]) 100 = [(100, 2)] := by
    simp [deleteFutureTargets]
  have hlook : lookupTarget ([((100 : ℤ), (2 : ℚ))]) 100 = some 2 := by
    simp [lookupTarget]
  refine ⟨?_, ?_, getTargetKm_one, by norm_num⟩
  · rw [ensureTodayTarget_streak]
  · rw [show (⟨⟨4, 6, 0, some 97, some 99⟩, [(100, 2)], 0, 0⟩ :
        EngineState).targets = [((100 : ℤ), (2 : ℚ))] from rfl] at *
    rw [ensureTodayTarget_some _ 100 2 (by rw [show ({ streak := _, targets := deleteFutureTargets [((100 : ℤ), (2 : ℚ))] 100, skipCards := _, rpBalance := _ } : EngineState).targets = deleteFutureTargets [((100 : ℤ), (2 : ℚ))] 100 from rfl, hdel]; exact hlook)]
    rw [hdel]
    exact hlook

/-- C1 witness: the spec's scenario — last run 3 days ago, no credits, the
only stored target dated yesterday (2.0 km), no row for today — instantiated
in the amended reset theorem. -/
theorem checkAndApplyPenalties_hard_reset_witness :
    (checkAndApplyPenalties
        ⟨⟨4, 6, 1, some 97, some 99⟩, [(99, 2)], 0, 5⟩ 100).1 = 0 ∧
    (checkAndApplyPenalties
        ⟨⟨4, 6, 1, some 97, some 99⟩, [(99, 2)], 0, 5⟩ 100).2.streak.currentStreak
      = 0 ∧
    (checkAndApplyPenalties
        ⟨⟨4, 6, 1, some 97, some 99⟩, [(99, 2)], 0, 5⟩ 100).2.streak.penaltyKm
      = 0 ∧
    (checkAndApplyPenalties
        ⟨⟨4, 6, 1, some 97, some 99⟩, [(99, 2)], 0, 5⟩ 100).2.streak.longestStreak
      = (⟨⟨4, 6, 1, some 97, some 99⟩, [(99, 2)], 0, 5⟩ :
          EngineState).streak.longestStreak ∧
    lookupTarget (checkAndApplyPenalties
        ⟨⟨4, 6, 1, some 97, some 99⟩, [(99, 2)], 0, 5⟩ 100).2.targets 100
      = some (getTargetKm 1) ∧
    (∀ d : ℤ, (100 : ℤ) < d →
      lookupTarget (checkAndApplyPenalties
          ⟨⟨4, 6, 1, some 97, some 99⟩, [(99, 2)], 0, 5⟩ 100).2.targets d =
        if d < 100 + 90 then some (getTargetKm (1 + (d - 100))) else none) :=
  checkAndApplyPenalties_hard_reset
    ⟨⟨4, 6, 1, some 97, some 99⟩, [(99, 2)], 0, 5⟩ 100 97 rfl
    (by decide) (by decide) (by decide)

/-- C2: on a record not yet reconciled today with exactly one uncovered
missed day, the streak is not reset: `currentStreak` and `longestStreak` are
unchanged, one day's penalty distance — the `targetKm` of the most recent
stored target dated ≤ today, or 2.0 km if none exists — is added to
`penaltyKm` and returned, and `lastRunDate` advances by the credits
consumed.  (Stored targets are positive, per the data model.) -/
theorem checkAndApplyPenalties_single_miss (s : EngineState) (today lr : ℤ)
    (hl : s.streak.lastRunDate = some lr)
    (hu : ¬s.streak.updatedAtDate = some today)
    (hm : today - lr - 1 - min (s.skipCards : ℤ) (today - lr - 1) = 1)
    (hpos : ∀ p ∈ s.targets, (0 : ℚ) < p.2) :
    (checkAndApplyPenalties s today).1 =
      (mostRecentTarget s.targets today).getD 2 ∧
    (checkAndApplyPenalties s today).2.streak.currentStreak =
      s.streak.currentStreak ∧
    (checkAndApplyPenalties s today).2.streak.longestStreak =
      s.streak.longestStreak ∧
    (checkAndApplyPenalties s today).2.streak.penaltyKm =
      s.streak.penaltyKm + (mostRecentTarget s.targets today).getD 2 ∧
    (checkAndApplyPenalties s today).2.streak.lastRunDate =
      some (lr + min (s.skipCards : ℤ) (today - lr - 1)) := by
  have hjs := jsOrDefault_of_pos s.targets today hpos
  rw [checkAndApplyPenalties_onemiss s today lr hl hu hm]
  refine ⟨hjs, ?_, ?_, ?_, ?_⟩ <;> simp [ensureTodayTarget_streak, hjs]

/-- C2 witness: last run 2 days ago, 0 credits, most recent stored target
3.0 km — the call adds a 3.0 km penalty, returns it, and leaves
`currentStreak` at 4. -/
theorem checkAndApplyPenalties_single_miss_witness :
    (checkAndApplyPenalties
        ⟨⟨4, 6, 0, some 98, some 99⟩, [(99, 3)], 0, 0⟩ 100).1 = 3 ∧
    (checkAndApplyPenalties
        ⟨⟨4, 6, 0, some 98, some 99⟩, [(99, 3)], 0, 0⟩ 100).2.streak.currentStreak
      = 4 ∧
    (checkAndApplyPenalties
        ⟨⟨4, 6, 0, some 98, some 99⟩, [(99, 3)], 0, 0⟩ 100).2.streak.penaltyKm
      = 3 := by
  have h := checkAndApplyPenalties_single_miss
    ⟨⟨4, 6, 0, some 98, some 99⟩, [(99, 3)], 0, 0⟩ 100 98 rfl (by decide) (by decide)
    (by intro p hp; rw [List.mem_singleton] at hp; subst hp; norm_num)
  have hmr : (mostRecentTarget [((99 : ℤ), (3 : ℚ))] 100).getD 2 = 3 := by
    norm_num [mostRecentTarget, mostRecentTargetEntry]
  exact ⟨h.1.trans hmr, h.2.1.trans rfl,
    h.2.2.2.1.trans (by rw [hmr]; norm_num)⟩

theorem processWorkout_penalty (s : EngineState) (today : ℤ) (dist tgt : ℚ)
    (hd : 0 ≤ dist) (hp : 0 ≤ s.streak.penaltyKm) :
    (processWorkout s today dist tgt).1.penaltyCleared =
      min dist s.streak.penaltyKm ∧
    (processWorkout s today dist tgt).2.streak.penaltyKm =
      s.streak.penaltyKm - min dist s.streak.penaltyKm ∧
    ((processWorkout s today dist tgt).1.streakUpdated = true ↔
      (if 0 < tgt then tgt ≤ dist - min dist s.streak.penaltyKm
       else 0 < dist)) := by
  rcases lt_or_le 0 s.streak.penaltyKm with h0 | h0
  · rcases le_or_lt s.streak.penaltyKm dist with h1 | h1
    · simp [processWorkout, h0, h1, min_eq_right h1]
    · simp [processWorkout, h0, not_le.mpr h1, min_eq_left h1.le]
  · have hp0 : s.streak.penaltyKm = 0 := le_antisymm h0 hp
    simp [processWorkout, hp0, min_eq_right hd]

theorem processWorkout_rpEarned_eq (s : EngineState) (today : ℤ)
    (dist tgt : ℚ) :
    (processWorkout s today dist tgt).1.rpEarned =
      if ((processWorkout s today dist tgt).1.streakUpdated = true ∧ 0 < tgt)
      then max 0 ⌊(dist - (processWorkout s today dist tgt).1.penaltyCleared
                    - tgt) * 10⌋
      else 0 := by
  simp [processWorkout]

theorem checkAndApplyPenalties_updated_streak (s : EngineState) (today : ℤ)
    (hu : s.streak.updatedAtDate = some today) :
    (checkAndApplyPenalties s today).2.streak = s.streak := by
  rw [checkAndApplyPenalties_updated s today hu]
  exact ensureTodayTarget_streak s today

/-- C3: in `updateStreakAfterWorkout` (here on a record already reconciled
today, so the defensive reconciliation pass is a no-op on the streak row)
the outstanding penalty is cleared from the distance before the target is
evaluated: `penaltyCleared = min distanceKm penaltyKm`, the stored penalty
drops by exactly that amount, and the target check is
`targetMet = (targetKm > 0) ? (distanceKm - penaltyCleared ≥ targetKm)
: (distanceKm > 0)` — a zero target is satisfied by any nonzero distance. -/
theorem updateStreakAfterWorkout_penalty_first (s : EngineState) (today : ℤ)
    (dist tgt : ℚ) (hu : s.streak.updatedAtDate = some today)
    (hd : 0 ≤ dist) (hp : 0 ≤ s.streak.penaltyKm) :
    (updateStreakAfterWorkout s today dist tgt).1.penaltyCleared =
      min dist s.streak.penaltyKm ∧
    (updateStreakAfterWorkout s today dist tgt).2.streak.penaltyKm =
      s.streak.penaltyKm - min dist s.streak.penaltyKm ∧
    ((updateStreakAfterWorkout s today dist tgt).1.streakUpdated = true ↔
      (if 0 < tgt then tgt ≤ dist - min dist s.streak.penaltyKm
       else 0 < dist)) := by
  have hs := checkAndApplyPenalties_updated_streak s today hu
  rw [updateStreakAfterWorkout]
  have h := processWorkout_penalty (checkAndApplyPenalties s today).2 today dist tgt
    hd (by rw [hs]; exact hp)
  rw [hs] at h
  exact h

/-- C3 witness: `penaltyKm = 2.0`, `distanceKm = 3.0`, `targetKm = 1.5` —
the penalty is cleared in full (2.0), the residual 1.0 km misses the 1.5 km
target, so `targetMet` is false even though the raw distance exceeded it. -/
theorem updateStreakAfterWorkout_penalty_first_witness :
    (updateStreakAfterWorkout
        ⟨⟨1, 2, 2, some 5, some 5⟩, [(5, 3 / 2)], 0, 0⟩ 5 3 (3 / 2)).1.penaltyCleared
      = 2 ∧
    (updateStreakAfterWorkout
        ⟨⟨1, 2, 2, some 5, some 5⟩, [(5, 3 / 2)], 0, 0⟩ 5 3 (3 / 2)).2.streak.penaltyKm
      = 0 ∧
    (updateStreakAfterWorkout
        ⟨⟨1, 2, 2, some 5, some 5⟩, [(5, 3 / 2)], 0, 0⟩ 5 3 (3 / 2)).1.streakUpdated
      = false := by
  have h := updateStreakAfterWorkout_penalty_first
    ⟨⟨1, 2, 2, some 5, some 5⟩, [(5, 3 / 2)], 0, 0⟩ 5 3 (3 / 2) rfl
    (by norm_num) (by norm_num)
  refine ⟨h.1.trans (by norm_num [min_def]), h.2.1.trans (by norm_num [min_def]), ?_⟩
  refine Bool.eq_false_iff.mpr (fun ht => ?_)
  have hP := h.2.2.mp ht
  norm_num [min_def] at hP

/-- C6: bonus RP is earned only when the target was met and `targetKm > 0`,
and then `rpEarned = ⌊(remaining - targetKm) * 10⌋` where
`remaining = distanceKm - penaltyCleared`; in every other case
`rpEarned = 0`.  (Again stated on a record already reconciled today.) -/
theorem updateStreakAfterWorkout_rp (s : EngineState) (today : ℤ)
    (dist tgt : ℚ) (hu : s.streak.updatedAtDate = some today)
    (hd : 0 ≤ dist) (hp : 0 ≤ s.streak.penaltyKm) :
    ((updateStreakAfterWorkout s today dist tgt).1.streakUpdated = true ∧
        0 < tgt →
      (updateStreakAfterWorkout s today dist tgt).1.rpEarned =
        ⌊(dist - min dist s.streak.penaltyKm - tgt) * 10⌋) ∧
    (¬((updateStreakAfterWorkout s today dist tgt).1.streakUpdated = true ∧
        0 < tgt) →
      (updateStreakAfterWorkout s today dist tgt).1.rpEarned = 0) := by
  have hs := checkAndApplyPenalties_updated_streak s today hu
  have hpen := updateStreakAfterWorkout_penalty_first s today dist tgt hu hd hp
  rw [updateStreakAfterWorkout] at hpen ⊢
  have hrp := processWorkout_rpEarned_eq (checkAndApplyPenalties s today).2 today dist tgt
  constructor
  · rintro ⟨hmet, htgt⟩
    rw [hrp, if_pos ⟨hmet, htgt⟩, hpen.1]
    have hexcess : (0 : ℚ) ≤ dist - min dist s.streak.penaltyKm - tgt := by
      have := hpen.2.2.mp hmet
      rw [if_pos htgt] at this
      linarith
    exact max_eq_right (Int.floor_nonneg.mpr (by positivity))
  · intro hnot
    rw [hrp, if_neg hnot]

/-- C6 witness: `targetKm = 2.0`, `distanceKm = 2.37`, no penalty — the
0.37 km excess earns `⌊3.7⌋ = 3` RP. -/
theorem updateStreakAfterWorkout_rp_witness :
    (updateStreakAfterWorkout
        ⟨⟨1, 2, 0, some 5, some 5⟩, [(5, 2)], 0, 0⟩ 5 (237 / 100) 2).1.rpEarned
      = 3 := by
  have h := updateStreakAfterWorkout_rp
    ⟨⟨1, 2, 0, some 5, some 5⟩, [(5, 2)], 0, 0⟩ 5 (237 / 100) 2 rfl
    (by norm_num) (by norm_num)
  have hpen := updateStreakAfterWorkout_penalty_first
    ⟨⟨1, 2, 0, some 5, some 5⟩, [(5, 2)], 0, 0⟩ 5 (237 / 100) 2 rfl
    (by norm_num) (by norm_num)
  have hmet : (updateStreakAfterWorkout
      ⟨⟨1, 2, 0, some 5, some 5⟩, [(5, 2)], 0, 0⟩ 5 (237 / 100) 2).1.streakUpdated
      = true := by
    rw [hpen.2.2]
    norm_num [min_def]
  rw [h.1 ⟨hmet, by norm_num⟩]
  have hfloor : ⌊((237 : ℚ) / 100 - min ((237 : ℚ) / 100)
      ((⟨⟨1, 2, 0, some 5, some 5⟩, [(5, 2)], 0, 0⟩ :
        EngineState).streak.penaltyKm) - 2) * 10⌋ = 3 :=
    Int.floor_eq_iff.mpr (by norm_num [min_def])
  rw [hfloor]

theorem checkAndApplyPenalties_inv (s : EngineState) (today : ℤ)
    (hinv : 0 ≤ s.streak.currentStreak ∧
      s.streak.currentStreak ≤ s.streak.longestStreak) :
    0 ≤ (checkAndApplyPenalties s today).2.streak.currentStreak ∧
    (checkAndApplyPenalties s today).2.streak.currentStreak ≤
      (checkAndApplyPenalties s today).2.streak.longestStreak := by
  obtain ⟨h1, h2⟩ := hinv
  rcases hl : s.streak.lastRunDate with _ | lr
  · simpa [checkAndApplyPenalties_none s today hl, ensureTodayTarget_streak]
      using ⟨h1, h2⟩
  · by_cases hu : s.streak.updatedAtDate = some today
    · simpa [checkAndApplyPenalties_updated s today hu, ensureTodayTarget_streak]
        using ⟨h1, h2⟩
    · by_cases hgap : today - lr ≤ 1
      · simpa [checkAndApplyPenalties_recent s today lr hl hgap,
          ensureTodayTarget_streak] using ⟨h1, h2⟩
      · by_cases ha0 : today - lr - 1 - min (s.skipCards : ℤ) (today - lr - 1) = 0
        · simpa [checkAndApplyPenalties_covered s today lr hl hu (by omega) ha0,
            ensureTodayTarget_streak] using ⟨h1, h2⟩
        · by_cases ha1 :
              today - lr - 1 - min (s.skipCards : ℤ) (today - lr - 1) = 1
          · simpa [checkAndApplyPenalties_onemiss s today lr hl hu ha1,
              ensureTodayTarget_streak] using ⟨h1, h2⟩
          · rw [checkAndApplyPenalties_reset s today lr hl hu (by omega)]
            simp [ensureTodayTarget_streak]
            omega

theorem processWorkout_inv (s : EngineState) (today : ℤ) (dist tgt : ℚ)
    (hinv : 0 ≤ s.streak.currentStreak ∧
      s.streak.currentStreak ≤ s.streak.longestStreak) :
    0 ≤ (processWorkout s today dist tgt).2.streak.currentStreak ∧
    (processWorkout s today dist tgt).2.streak.currentStreak ≤
      (processWorkout s today dist tgt).2.streak.longestStreak := by
  obtain ⟨h1, h2⟩ := hinv
  dsimp only [processWorkout]
  split_ifs <;> constructor <;> omega

/-- C8: the invariant `longestStreak ≥ currentStreak ≥ 0` is preserved by
both writers of the streak record: `checkAndApplyPenalties` (which only ever
lowers `currentStreak` to 0 and never writes `longestStreak`) and
`updateStreakAfterWorkout` (which sets
`longestStreak = max longestStreak currentStreak` when advancing). -/
theorem streak_invariant_preserved (s : EngineState) (today : ℤ)
    (dist tgt : ℚ)
    (hinv : 0 ≤ s.streak.currentStreak ∧
      s.streak.currentStreak ≤ s.streak.longestStreak) :
    (0 ≤ (checkAndApplyPenalties s today).2.streak.currentStreak ∧
      (checkAndApplyPenalties s today).2.streak.currentStreak ≤
        (checkAndApplyPenalties s today).2.streak.longestStreak) ∧
    (0 ≤ (updateStreakAfterWorkout s today dist tgt).2.streak.currentStreak ∧
      (updateStreakAfterWorkout s today dist tgt).2.streak.currentStreak ≤
        (updateStreakAfterWorkout s today dist tgt).2.streak.longestStreak) := by
  have hc := checkAndApplyPenalties_inv s today hinv
  refine ⟨hc, ?_⟩
  rw [updateStreakAfterWorkout]
  exact processWorkout_inv _ today dist tgt hc

/-- C8 witness: the lazily created all-zero record satisfies the invariant,
and both operations keep it. -/
theorem streak_invariant_preserved_witness :
    (0 ≤ (checkAndApplyPenalties
        ⟨⟨0, 0, 0, none, none⟩, [], 0, 0⟩ 1).2.streak.currentStreak ∧
      (checkAndApplyPenalties
        ⟨⟨0, 0, 0, none, none⟩, [], 0, 0⟩ 1).2.streak.currentStreak ≤
        (checkAndApplyPenalties
        ⟨⟨0, 0, 0, none, none⟩, [], 0, 0⟩ 1).2.streak.longestStreak) ∧
    (0 ≤ (updateStreakAfterWorkout
        ⟨⟨0, 0, 0, none, none⟩, [], 0, 0⟩ 1 1 1).2.streak.currentStreak ∧
      (updateStreakAfterWorkout
        ⟨⟨0, 0, 0, none, none⟩, [], 0, 0⟩ 1 1 1).2.streak.currentStreak ≤
        (updateStreakAfterWorkout
        ⟨⟨0, 0, 0, none, none⟩, [], 0, 0⟩ 1 1 1).2.streak.longestStreak) :=
  streak_invariant_preserved ⟨⟨0, 0, 0, none, none⟩, [], 0, 0⟩ 1 1 1
    ⟨by norm_num, by norm_num⟩

/-- C10: processing any workout on day `today` — whatever its distance and
however the target evaluation went — unconditionally stamps today as
`last_run_date` (and `updated_at`); a reconciliation run the same day or the
next day therefore returns 0 and leaves the streak record untouched, so a
day with any logged workout is never later treated as a missed day. -/
theorem updateStreakAfterWorkout_sets_lastRun (s : EngineState) (today : ℤ)
    (dist tgt : ℚ) :
    (updateStreakAfterWorkout s today dist tgt).2.streak.lastRunDate =
      some today ∧
    (updateStreakAfterWorkout s today dist tgt).2.streak.updatedAtDate =
      some today ∧
    (checkAndApplyPenalties
      (updateStreakAfterWorkout s today dist tgt).2 today).1 = 0 ∧
    (checkAndApplyPenalties
      (updateStreakAfterWorkout s today dist tgt).2 today).2.streak =
      (updateStreakAfterWorkout s today dist tgt).2.streak ∧
    (checkAndApplyPenalties
      (updateStreakAfterWorkout s today dist tgt).2 (today + 1)).1 = 0 ∧
    (checkAndApplyPenalties
      (updateStreakAfterWorkout s today dist tgt).2 (today + 1)).2.streak =
      (updateStreakAfterWorkout s today dist tgt).2.streak := by
  have hlast : (updateStreakAfterWorkout s today dist tgt).2.streak.lastRunDate
      = some today := rfl
  have hupd : (updateStreakAfterWorkout s today dist tgt).2.streak.updatedAtDate
      = some today := rfl
  refine ⟨hlast, hupd, ?_, ?_, ?_, ?_⟩
  · rw [checkAndApplyPenalties_updated _ today hupd]
  · rw [checkAndApplyPenalties_updated _ today hupd]
    exact ensureTodayTarget_streak _ _
  · rw [checkAndApplyPenalties_recent _ (today + 1) today hlast (by omega)]
  · rw [checkAndApplyPenalties_recent _ (today + 1) today hlast (by omega)]
    exact ensureTodayTarget_streak _ _

/-- C9 (amended): `purchaseSkipCard` fails with the insufficient-balance
error whenever the profile is missing or its balance is below the cost (this
check runs first); it fails with the weekly-limit error whenever the balance
covers the cost but the user already holds ≥ 2 credits (used or unused)
purchased in the current ISO week bucket for this item — so a third purchase
in the same week bucket always fails, though with the insufficient-balance
error when the balance is also short; on either failure the state is
unchanged (no debit, no inserted credit); only on success is the balance
debited by the cost and a credit inserted with `expiresAt = now + 24h`. -/
theorem purchaseSkipCard_spec (s : ShopState) (itemId : String) (rpCost : ℚ)
    (now weekOfYear : ℤ) :
    (s.rpBalance = none →
      purchaseSkipCard s itemId rpCost now weekOfYear =
        (.notEnoughRP, s)) ∧
    (∀ bal, s.rpBalance = some bal → bal < rpCost →
      purchaseSkipCard s itemId rpCost now weekOfYear =
        (.notEnoughRP, s)) ∧
    (∀ bal, s.rpBalance = some bal → rpCost ≤ bal →
      2 ≤ weeklyCount s itemId weekOfYear →
      purchaseSkipCard s itemId rpCost now weekOfYear =
        (.weeklyLimitReached, s)) ∧
    (2 ≤ weeklyCount s itemId weekOfYear →
      ∀ p, (purchaseSkipCard s itemId rpCost now weekOfYear).1 ≠
        .purchased p) ∧
    (∀ bal, s.rpBalance = some bal → rpCost ≤ bal →
      weeklyCount s itemId weekOfYear < 2 →
      purchaseSkipCard s itemId rpCost now weekOfYear =
        (.purchased ⟨itemId, now + 24 * 60 * 60 * 1000, weekOfYear, none⟩,
         ⟨some (bal - rpCost),
          s.purchases ++ [⟨itemId, now + 24 * 60 * 60 * 1000, weekOfYear, none⟩]⟩)) := by
  refine ⟨?_, ?_, ?_, ?_, ?_⟩
  · intro h
    simp [purchaseSkipCard, h]
  · intro bal hb hlt
    simp [purchaseSkipCard, hb, hlt]
  · intro bal hb hge hcount
    simp [purchaseSkipCard, hb, not_lt.mpr hge, hcount]
  · intro hcount p
    rcases hb : s.rpBalance with _ | bal
    · simp [purchaseSkipCard, hb]
    · by_cases hlt : bal < rpCost
      · simp [purchaseSkipCard, hb, hlt]
      · simp [purchaseSkipCard, hb, hlt, hcount]
  · intro bal hb hge hcount
    simp [purchaseSkipCard, hb, not_lt.mpr hge, not_le.mpr hcount]

/-- C9 counterexample: with two credits already purchased this week AND an
insufficient balance, the purchase fails with the insufficient-balance
error, not the weekly-limit error the claim promises for every state with
≥ 2 credits: the balance check runs first. -/
theorem purchaseSkipCard_error_priority_counterexample :
    2 ≤ weeklyCount
      ⟨some 1, [⟨"skip", 500, 202541, none⟩, ⟨"skip", 600, 202541, some 300⟩]⟩
      "skip" 202541 ∧
    (purchaseSkipCard
      ⟨some 1, [⟨"skip", 500, 202541, none⟩, ⟨"skip", 600, 202541, some 300⟩]⟩
      "skip" 10 1000 202541).1 = .notEnoughRP ∧
    PurchaseOutcome.notEnoughRP ≠ PurchaseOutcome.weeklyLimitReached := by
  refine ⟨?_, ?_, by decide⟩
  · norm_num [weeklyCount]
  · have h := (purchaseSkipCard_spec
      ⟨some 1, [⟨"skip", 500, 202541, none⟩, ⟨"skip", 600, 202541, some 300⟩]⟩
      "skip" 10 1000 202541).2.1 1 rfl (by norm_num)
    rw [h]

/-- C9 witness: a third same-week purchase fails with the weekly-limit error
and changes nothing; a first purchase with sufficient balance succeeds,
debits the cost and inserts a credit expiring 24 h later. -/
theorem purchaseSkipCard_spec_witness :
    purchaseSkipCard
      ⟨some 100, [⟨"skip", 500, 202541, none⟩, ⟨"skip", 600, 202541, some 300⟩]⟩
      "skip" 10 1000 202541 =
      (.weeklyLimitReached,
       ⟨some 100, [⟨"skip", 500, 202541, none⟩, ⟨"skip", 600, 202541, some 300⟩]⟩) ∧
    purchaseSkipCard ⟨some 100, []⟩ "skip" 10 1000 202541 =
      (.purchased ⟨"skip", 1000 + 24 * 60 * 60 * 1000, 202541, none⟩,
       ⟨some (100 - 10), [⟨"skip", 1000 + 24 * 60 * 60 * 1000, 202541, none⟩]⟩) := by
  constructor
  · exact (purchaseSkipCard_spec
      ⟨some 100, [⟨"skip", 500, 202541, none⟩, ⟨"skip", 600, 202541, some 300⟩]⟩
      "skip" 10 1000 202541).2.2.1 100 rfl (by norm_num) (by norm_num [weeklyCount])
  · have h := (purchaseSkipCard_spec ⟨some 100, []⟩
      "skip" 10 1000 202541).2.2.2.2 100 rfl (by norm_num) (by norm_num [weeklyCount])
    rw [h]
    simp
